import Mathlib

/-!
The physical-memory-observe interface of snapd.

A shallow embedding of `interfaces/builtin/physical_memory_observe.go` and the
properties of its sanitizers, its auto-connect predicate and its snippet
producers.

Conventions of the embedding:

* a Go pointer argument (`*interfaces.Plug`, `*interfaces.Slot`) is an `Option`:
  `none` is the nil pointer, and dereferencing it panics;
* a Go call either returns or panics: `Exec`;
* a Go `error` is an `Option String`: `none` is `nil`, `some msg` an error whose
  `Error()` text is `msg`;
* a Go `[]byte` is an `Option String`: `none` is the nil slice;
* `for k := range m` over a Go map visits every key once, in an order the
  runtime picks anew at every loop; the order is an explicit argument of the
  function that loops, constrained by `IsRangeOrder`.
-/

namespace builtin

/-- Outcome of a Go call: it returns a value, or it panics with a message. -/
inductive Exec (α : Type) where
  | returned (value : α)
  | panicked (msg : String)
  deriving DecidableEq, Repr

/-- Go `string`. -/
abbrev string := String

/-- Go `error`: `none` is nil, `some msg` carries the text of `Error()`. -/
abbrev error := Option String

/-- Go `[]byte`: `none` is the nil slice, `some s` holds the bytes of `s`. -/
abbrev Bytes := Option String

/-- Modelled from the spec: `snap.Info` is declared outside this file; the spec
gives a snap a name and a type (`Snap{name, type}`). -/
structure Info where
  name : String
  snapType : String
  deriving DecidableEq, Repr

/-- Modelled from the spec: the accessor `(*snap.Info).Name()`, the snap's name. -/
def Info.Name (s : Info) : String := s.name

/-- Modelled from the spec: `interfaces.Plug` (`Plug{name, interface, owning
snap, attributes, consuming apps}`). `Apps` is the key set of the Go map
`map[string]*snap.AppInfo`; the code of this file reads the keys only. -/
structure Plug where
  Snap : Info
  Name : String
  Interface : String
  Attrs : List (String × String)
  Apps : Finset String
  deriving DecidableEq

/-- Modelled from the spec: `interfaces.Slot` (`Slot{name, interface, owning
snap, attributes}`). -/
structure Slot where
  Snap : Info
  Name : String
  Interface : String
  Attrs : List (String × String)
  deriving DecidableEq, Repr

/-- Modelled from the spec: `interfaces.SecuritySystem`, a string type naming a
security backend. -/
structure SecuritySystem where
  name : String
  deriving DecidableEq, Repr

/-- Modelled from the spec: the constant `interfaces.SecurityUDev`, the
device-tagging backend. -/
def SecurityUDev : SecuritySystem := ⟨"udev"⟩

/-- The panic message of the Go runtime on a nil pointer dereference. -/
def nilDereference : String :=
  "runtime error: invalid memory address or nil pointer dereference"

/-- The verb `%q` of package fmt on a string: `strconv.Quote`, here for
printable ASCII text, where only the double quote and the backslash are
escaped. -/
def quote (s : String) : String :=
  "\"" ++ String.join (s.toList.map fun c =>
    if c = '"' then "\\\"" else if c = '\\' then "\\\\" else c.toString) ++ "\""

/-- `bytes.Buffer`: the zero value has a nil byte slice. -/
structure Buffer where
  buf : Bytes
  deriving DecidableEq, Repr

/-- The zero value `var b bytes.Buffer`. -/
def Buffer.zero : Buffer := ⟨none⟩

/-- `(*bytes.Buffer).WriteString`: appends the text to the buffer. -/
def Buffer.WriteString (b : Buffer) (s : String) : Buffer :=
  ⟨some (b.buf.getD "" ++ s)⟩

/-- `(*bytes.Buffer).Bytes`: the unread portion, here the whole content. -/
def Buffer.Bytes (b : Buffer) : Bytes := b.buf

/-- The text of a byte slice; the nil slice has the empty text. -/
def text (b : Bytes) : String := b.getD ""

/-- The keys a Go `range` loop over a map with key set `keys` may visit, in
order: every key exactly once, in any order. -/
def IsRangeOrder (keys : Finset String) (order : List String) : Prop :=
  order.Nodup ∧ order.toFinset = keys

instance (keys : Finset String) (order : List String) :
    Decidable (IsRangeOrder keys order) := by
  unfold IsRangeOrder; infer_instance

/-- The constant `physicalMemoryObserveConnectedPlugAppArmor`. -/
def physicalMemoryObserveConnectedPlugAppArmor : String :=
  "\n# Description: With kernels with STRICT_DEVMEM=n, read-only access to all physical\n# memory. With STRICT_DEVMEM=y, allow reading /dev/mem for read-only\n# access to architecture-specific subset of the physical address (eg, PCI,\n# space, BIOS code and data regions on x86, etc).\n/dev/mem r,\n"

/-- The type for physical-memory-observe interface. -/
structure PhysicalMemoryObserveInterface where
  deriving DecidableEq, Repr

/-- Getter for the name of the physical-memory-observe interface. -/
def PhysicalMemoryObserveInterface.Name (_iface : PhysicalMemoryObserveInterface) : string :=
  "physical-memory-observe"

/-- The interface as text: its name. -/
def PhysicalMemoryObserveInterface.String (iface : PhysicalMemoryObserveInterface) : string :=
  iface.Name

/-- Check validity of the defined slot. The result pairs the slot as the call
leaves it with the returned error. -/
def PhysicalMemoryObserveInterface.SanitizeSlot (iface : PhysicalMemoryObserveInterface)
    (slot : Option Slot) : Exec (Slot × error) :=
  match slot with
  | none => .panicked nilDereference
  | some s =>
    -- Does it have right type?
    if iface.Name ≠ s.Interface then
      .panicked ("slot is not of interface " ++ quote iface.String)
    else if !(s.Snap.snapType == "os") then
      .returned (s, some (iface.Name ++ " slots only allowed on core snap"))
    else
      .returned (s, none)

/-- Checks and possibly modifies a plug. The result pairs the plug as the call
leaves it with the returned error. -/
def PhysicalMemoryObserveInterface.SanitizePlug (iface : PhysicalMemoryObserveInterface)
    (plug : Option Plug) : Exec (Plug × error) :=
  match plug with
  | none => .panicked nilDereference
  | some p =>
    if iface.Name ≠ p.Interface then
      .panicked ("plug is not of interface " ++ quote iface.String)
    else
      -- Currently nothing is checked on the plug side
      .returned (p, none)

/-- Returns snippet granted on install. -/
def PhysicalMemoryObserveInterface.PermanentSlotSnippet (_iface : PhysicalMemoryObserveInterface)
    (_slot : Option Slot) (_securitySystem : SecuritySystem) : Exec (Bytes × error) :=
  .returned (none, none)

/-- The format `udevRule` of `ConnectedPlugSnippet` applied to a tag:
`fmt.Sprintf(udevRule, tag)`. -/
def udevRule (tag : string) : string :=
  "KERNEL==\"mem\", TAG+=\"" ++ tag ++ "\""

/-- Getter for the security snippet specific to the plug. The helper
`udevSnapSecurityName`, declared in another file of the package, is an
argument, and so is `order`, the order in which `range plug.Apps` visits the
app names. -/
def PhysicalMemoryObserveInterface.ConnectedPlugSnippet (_iface : PhysicalMemoryObserveInterface)
    (udevSnapSecurityName : string → string → string) (order : List string)
    (plug : Option Plug) (_slot : Option Slot) (securitySystem : SecuritySystem) :
    Exec (Bytes × error) :=
  if securitySystem = SecurityUDev then
    match plug with
    | none => .panicked nilDereference
    | some p =>
      let tagSnippet := order.foldl (fun (tagSnippet : Buffer) appName =>
        let tag := udevSnapSecurityName p.Snap.Name appName
        (tagSnippet.WriteString (udevRule tag)).WriteString "\n") Buffer.zero
      .returned (tagSnippet.Bytes, none)
  else
    .returned (none, none)

/-- No extra permissions granted on connection. -/
def PhysicalMemoryObserveInterface.ConnectedSlotSnippet (_iface : PhysicalMemoryObserveInterface)
    (_plug : Option Plug) (_slot : Option Slot) (_securitySystem : SecuritySystem) :
    Exec (Bytes × error) :=
  .returned (none, none)

/-- No permissions granted to plug permanently. -/
def PhysicalMemoryObserveInterface.PermanentPlugSnippet (_iface : PhysicalMemoryObserveInterface)
    (_plug : Option Plug) (_securitySystem : SecuritySystem) : Exec (Bytes × error) :=
  .returned (none, none)

/-- Allow what is allowed in the declarations. -/
def PhysicalMemoryObserveInterface.AutoConnect (_iface : PhysicalMemoryObserveInterface)
    (_plug : Option Plug) (_slot : Option Slot) : Exec Bool :=
  .returned true

/-- Modelled from the spec: `udevSnapSecurityName`, a helper of the package
declared in another file. The spec has the device-tagging rule carry the
security tag of the consuming app, `snap.<snap-name>.<app-name>`. -/
def udevSnapSecurityName (snapName : string) (appName : string) : string :=
  "snap." ++ snapName ++ "." ++ appName

/-- Modelled from the spec: a tag's snippet set in a Specification, kept in
insertion order and deduplicated on exact text; `addSnippet` feeds it the
result of a producer, and a nil result contributes nothing. -/
def addSnippet (snippets : List string) (snippet : Bytes) : List string :=
  match snippet with
  | none => snippets
  | some s => if s ∈ snippets then snippets else snippets ++ [s]

/-- The text made of the given lines, each terminated by a newline. -/
def ruleText : List string → string
  | [] => ""
  | line :: rest => line ++ "\n" ++ ruleText rest

/-- The snippet a call returned, when it returned. -/
def Exec.snippet : Exec (Bytes × error) → Bytes
  | .returned (b, _) => b
  | .panicked _ => none

/-- A slot of the interface on the core snap. -/
def osSlot : Slot :=
  ⟨⟨"core", "os"⟩, "physical-memory-observe", "physical-memory-observe", []⟩

/-- A slot of the interface on a gadget snap. -/
def gadgetSlot : Slot :=
  ⟨⟨"pc", "gadget"⟩, "physical-memory-observe", "physical-memory-observe", []⟩

/-- A slot of another interface on the core snap. -/
def dockerSlot : Slot :=
  ⟨⟨"core", "os"⟩, "docker-daemon", "docker", []⟩

/-- A plug of the interface used by the apps `a` and `b` of the snap `foo`. -/
def twoAppPlug : Plug :=
  ⟨⟨"foo", "app"⟩, "physical-memory-observe", "physical-memory-observe", [], {"a", "b"}⟩

/-- A plug of the interface used by the single app `a` of the snap `foo`. -/
def oneAppPlug : Plug :=
  ⟨⟨"foo", "app"⟩, "physical-memory-observe", "physical-memory-observe", [], {"a"}⟩

/-- Add the AppArmor snippet of a connected plug to the specification. The type
`apparmor.Specification` is declared in another package: the specification is
of any type, and its method `AddSnippet` is an argument. -/
def PhysicalMemoryObserveInterface.AppArmorConnectedPlug {σ : Type}
    (_iface : PhysicalMemoryObserveInterface) (AddSnippet : σ → string → σ) (spec : σ)
    (_plug : Option Plug) (_slot : Option Slot) : Exec (σ × error) :=
  .returned (AddSnippet spec physicalMemoryObserveConnectedPlugAppArmor, none)

/-- Modelled from the spec: `AddSnippet` on a Specification seen as the list of
the snippets added to it, in the order of the calls. -/
def recordSnippet (spec : List string) (snippet : string) : List string :=
  spec ++ [snippet]

/-- The lines of a text: the pieces between its newline characters. -/
def splitLines : List Char → List (List Char)
  | [] => [[]]
  | c :: cs =>
    if c = '\n' then [] :: splitLines cs
    else
      match splitLines cs with
      | [] => [[c]]
      | line :: rest => (c :: line) :: rest

/-- The rules of a policy text: its lines that are neither blank nor a comment
(a line whose first character other than white space is `#`). -/
def ruleLines (policy : string) : List string :=
  ((splitLines policy.data).filter fun line =>
    match line.dropWhile Char.isWhitespace with
    | [] => false
    | c :: _ => c ≠ '#').map String.mk

/-- Modelled from the spec: the security tag of an app, the process identity
`snap.<snap-name>.<app-name>` that policy fragments are keyed by. -/
def SecurityTag (snapName : string) (appName : string) : string :=
  "snap." ++ snapName ++ "." ++ appName

/-- Modelled from the spec: the Specification of one security backend, a
mapping from security tag to an ordered, deduplicated set of snippets, here in
the order in which the tags got their first snippet. `securityTags` holds the
tags of the apps of the plug or slot being added: what a producer writes
meanwhile goes to them. -/
structure Specification where
  securityTags : List string
  snippets : List (string × List string)
  deriving DecidableEq, Repr

/-- Modelled from the spec: a Specification built fresh, without contribution. -/
def Specification.fresh : Specification := ⟨[], []⟩

/-- Modelled from the spec: append a snippet to the set of a tag, deduplicating
exact-text repeats; a tag without contribution so far gets its first one. -/
def addForTag (snippets : List (string × List string)) (tag : string) (snippet : string) :
    List (string × List string) :=
  match snippets with
  | [] => [(tag, [snippet])]
  | (t, set) :: rest =>
    if t = tag then (t, addSnippet set (some snippet)) :: rest
    else (t, set) :: addForTag rest tag snippet

/-- Modelled from the spec: `AddSnippet`, by which a producer writes into the
Specification: the snippet is appended to the set of every tag of the plug or
slot being added. -/
def Specification.AddSnippet (spec : Specification) (snippet : string) : Specification :=
  ⟨spec.securityTags,
    spec.securityTags.foldl (fun snippets tag => addForTag snippets tag snippet) spec.snippets⟩

/-- Modelled from the spec: `AddConnectedPlug(iface, plug, slot)`: for each app
that is a consumer of the plug the security tag is computed, and the
interface's connected-plug producer for this backend, `connectedPlug`, writes
its snippets to those tags. `order` is the order in which the apps of the plug
are visited. -/
def Specification.AddConnectedPlug (spec : Specification)
    (connectedPlug : Specification → Option Plug → Option Slot → Exec (Specification × error))
    (order : List string) (plug : Option Plug) (slot : Option Slot) :
    Exec (Specification × error) :=
  match plug with
  | none => .panicked nilDereference
  | some p =>
    match connectedPlug ⟨order.map (SecurityTag p.Snap.Name), spec.snippets⟩ plug slot with
    | .returned (spec', err) => .returned (⟨[], spec'.snippets⟩, err)
    | .panicked msg => .panicked msg

/-- Modelled from the spec: `SecurityTags()`, the tags that received any
contribution. -/
def Specification.SecurityTags (spec : Specification) : List string :=
  spec.snippets.map Prod.fst

/-- Modelled from the spec: `SnippetForTag(tag)`, the merged policy text of one
security tag: its snippets in order, one per line block. -/
def Specification.SnippetForTag (spec : Specification) (tag : string) : string :=
  match spec.snippets.lookup tag with
  | none => ""
  | some set => "\n".intercalate set

/-- Modelled from the spec: the docker interface, declared in another file of
the package. -/
structure DockerInterface where
  deriving DecidableEq, Repr

/-- Modelled from the spec: the AppArmor text the docker interface grants a
connected plug, filesystem access to the daemon socket; the test has it contain
`run/docker.sock`, and the model keeps the one rule on that path. -/
def dockerConnectedPlugAppArmor : string := "/run/docker.sock rw,\n"

/-- Modelled from the spec: the seccomp text the docker interface grants a
connected plug, which permits the `bind` syscall; the model keeps that one
line. -/
def dockerConnectedPlugSecComp : string := "bind\n"

/-- Modelled from the spec: the name of the docker interface. -/
def DockerInterface.Name (_iface : DockerInterface) : string := "docker"

/-- Modelled from the spec: the connected-plug producer of the docker interface
for the AppArmor backend. -/
def DockerInterface.AppArmorConnectedPlug (_iface : DockerInterface) (spec : Specification)
    (_plug : Option Plug) (_slot : Option Slot) : Exec (Specification × error) :=
  .returned (spec.AddSnippet dockerConnectedPlugAppArmor, none)

/-- Modelled from the spec: the connected-plug producer of the docker interface
for the seccomp backend. -/
def DockerInterface.SecCompConnectedPlug (_iface : DockerInterface) (spec : Specification)
    (_plug : Option Plug) (_slot : Option Slot) : Exec (Specification × error) :=
  .returned (spec.AddSnippet dockerConnectedPlugSecComp, none)

/-- A text contains another one as a contiguous part. -/
def Contains (s : string) (part : string) : Prop :=
  ∃ before after : string, s = before ++ part ++ after

/-- The plug of the docker test: plug `docker` of the snap `docker`, used by its
app `app`. -/
def dockerPlug : Plug :=
  ⟨⟨"docker", "app"⟩, "docker", "docker", [], {"app"}⟩

/-- The slot of the docker test: slot `docker-daemon` of a snap named `docker`. -/
def dockerDaemonSlot : Slot :=
  ⟨⟨"docker", ""⟩, "docker-daemon", "docker", []⟩

/-- A plug of another interface used by the apps `a` and `b` of the snap `foo`. -/
def otherPlug : Plug :=
  ⟨⟨"foo", "app"⟩, "docker", "docker", [], {"a", "b"}⟩

/-! ## Sanitizers and auto-connect -/

/-- C1: on a slot of interface "physical-memory-observe", SanitizeSlot returns
no error exactly when the owning snap's type is "os"; for every other type, the
types "app", "gadget", "kernel", "core" and the empty one among them, it returns
an error. -/
theorem sanitizeSlot_nil_iff_os (iface : PhysicalMemoryObserveInterface) (slot : Slot)
    (h : slot.Interface = "physical-memory-observe") :
    ((∃ s, iface.SanitizeSlot (some slot) = .returned (s, none)) ↔ slot.Snap.snapType = "os") ∧
    (slot.Snap.snapType ≠ "os" →
      ∃ s msg, iface.SanitizeSlot (some slot) = .returned (s, some msg)) ∧
    (slot.Snap.snapType ∈ ["app", "gadget", "kernel", "core", ""] →
      ∃ s msg, iface.SanitizeSlot (some slot) = .returned (s, some msg)) := by
  have other : slot.Snap.snapType ≠ "os" →
      ∃ s msg, iface.SanitizeSlot (some slot) = .returned (s, some msg) := by
    intro hne
    refine ⟨slot, iface.Name ++ " slots only allowed on core snap", ?_⟩
    simp [PhysicalMemoryObserveInterface.SanitizeSlot,
      PhysicalMemoryObserveInterface.Name, h, hne]
  refine ⟨⟨?_, ?_⟩, other, ?_⟩
  · rintro ⟨s, hs⟩
    by_contra hne
    obtain ⟨s2, msg, h2⟩ := other hne
    rw [hs] at h2
    simp at h2
  · intro hos
    refine ⟨slot, ?_⟩
    simp [PhysicalMemoryObserveInterface.SanitizeSlot,
      PhysicalMemoryObserveInterface.Name, h, hos]
  · intro hmem
    apply other
    intro hos
    rw [hos] at hmem
    revert hmem
    decide

/-- Witness of C1 on the core snap's slot. -/
theorem sanitizeSlot_nil_iff_os_witness :
    osSlot.Interface = "physical-memory-observe" ∧
    ((∃ s, PhysicalMemoryObserveInterface.SanitizeSlot ⟨⟩ (some osSlot) = .returned (s, none)) ↔
      osSlot.Snap.snapType = "os") :=
  ⟨rfl, (sanitizeSlot_nil_iff_os ⟨⟩ osSlot rfl).1⟩

/-- The panic message of SanitizeSlot, with the quoted interface name spelled
out. -/
theorem slot_panic_message (iface : PhysicalMemoryObserveInterface) :
    "slot is not of interface " ++ quote iface.String =
      "slot is not of interface \"physical-memory-observe\"" := by
  cases iface
  decide

/-- C2: on a slot whose interface is not "physical-memory-observe", SanitizeSlot
panics, whatever the type of the owning snap: it returns neither nil nor the
validation error, the interface name being checked before the snap type. -/
theorem sanitizeSlot_wrong_interface_panics (iface : PhysicalMemoryObserveInterface)
    (slot : Slot) (h : slot.Interface ≠ "physical-memory-observe") :
    iface.SanitizeSlot (some slot) =
      .panicked "slot is not of interface \"physical-memory-observe\"" ∧
    (∀ s err, iface.SanitizeSlot (some slot) ≠ .returned (s, err)) := by
  have hp : iface.SanitizeSlot (some slot) =
      .panicked "slot is not of interface \"physical-memory-observe\"" := by
    rw [← slot_panic_message iface]
    simp [PhysicalMemoryObserveInterface.SanitizeSlot,
      PhysicalMemoryObserveInterface.Name, Ne.symm h]
  refine ⟨hp, ?_⟩
  intro s err hr
  rw [hp] at hr
  cases hr

/-- Witness of C2 on a docker slot of the core snap, whose type is "os". -/
theorem sanitizeSlot_wrong_interface_panics_witness :
    dockerSlot.Interface ≠ "physical-memory-observe" ∧ dockerSlot.Snap.snapType = "os" ∧
    PhysicalMemoryObserveInterface.SanitizeSlot ⟨⟩ (some dockerSlot) =
      .panicked "slot is not of interface \"physical-memory-observe\"" :=
  ⟨by decide, rfl, (sanitizeSlot_wrong_interface_panics ⟨⟩ dockerSlot (by decide)).1⟩

/-- C3: on a plug of interface "physical-memory-observe", SanitizePlug returns
no error, whatever the owning snap, the attributes and the apps of the plug. -/
theorem sanitizePlug_returns_nil (iface : PhysicalMemoryObserveInterface) (plug : Plug)
    (h : plug.Interface = "physical-memory-observe") :
    ∃ p, iface.SanitizePlug (some plug) = .returned (p, none) := by
  refine ⟨plug, ?_⟩
  simp [PhysicalMemoryObserveInterface.SanitizePlug, PhysicalMemoryObserveInterface.Name, h]

/-- Witness of C3 on a plug used by two apps. -/
theorem sanitizePlug_returns_nil_witness :
    twoAppPlug.Interface = "physical-memory-observe" ∧
    ∃ p, PhysicalMemoryObserveInterface.SanitizePlug ⟨⟩ (some twoAppPlug) = .returned (p, none) :=
  ⟨rfl, sanitizePlug_returns_nil ⟨⟩ twoAppPlug rfl⟩

/-- C4: AutoConnect returns true for every plug and every slot, nil ones and
pairs of any interface names included. -/
theorem autoConnect_true (iface : PhysicalMemoryObserveInterface) (plug : Option Plug)
    (slot : Option Slot) : iface.AutoConnect plug slot = .returned true :=
  rfl

/-- C8, evaluated: on a slot of the interface owned by a gadget snap,
SanitizeSlot returns the validation error, although the comment above the check
allows the slot on a gadget snap. -/
theorem sanitizeSlot_gadget_rejected :
    gadgetSlot.Interface = "physical-memory-observe" ∧ gadgetSlot.Snap.snapType = "gadget" ∧
    PhysicalMemoryObserveInterface.SanitizeSlot ⟨⟩ (some gadgetSlot) =
      .returned (gadgetSlot, some "physical-memory-observe slots only allowed on core snap") := by
  decide

/-- C9: on a slot of the interface whose snap is not of type "os", SanitizeSlot
returns (it does not panic) an error whose message is "physical-memory-observe
slots only allowed on core snap"; every error SanitizeSlot returns has this
message, which begins with the interface's Name(). -/
theorem sanitizeSlot_error_message (iface : PhysicalMemoryObserveInterface) (slot : Slot) :
    (slot.Interface = "physical-memory-observe" → slot.Snap.snapType ≠ "os" →
      iface.SanitizeSlot (some slot) =
        .returned (slot, some "physical-memory-observe slots only allowed on core snap")) ∧
    (∀ s msg, iface.SanitizeSlot (some slot) = .returned (s, some msg) →
      msg = "physical-memory-observe slots only allowed on core snap" ∧
      msg = iface.Name ++ " slots only allowed on core snap" ∧
      slot.Interface = "physical-memory-observe" ∧ slot.Snap.snapType ≠ "os") := by
  have hmsg : iface.Name ++ " slots only allowed on core snap" =
      "physical-memory-observe slots only allowed on core snap" := by
    cases iface
    decide
  constructor
  · intro h hne
    rw [← hmsg]
    simp [PhysicalMemoryObserveInterface.SanitizeSlot,
      PhysicalMemoryObserveInterface.Name, h, hne]
  · intro s msg hr
    unfold PhysicalMemoryObserveInterface.SanitizeSlot at hr
    by_cases hi : iface.Name ≠ slot.Interface
    · simp [hi] at hr
    · by_cases ht : slot.Snap.snapType = "os"
      · simp [hi, ht] at hr
      · simp [hi, ht] at hr
        have hname : slot.Interface = "physical-memory-observe" := by
          simp only [ne_eq, not_not] at hi
          exact hi.symm
        exact ⟨by rw [← hr.2, hmsg], hr.2.symm, hname, ht⟩

/-- Witness of C9 on a gadget snap's slot. -/
theorem sanitizeSlot_error_message_witness :
    gadgetSlot.Interface = "physical-memory-observe" ∧ gadgetSlot.Snap.snapType ≠ "os" ∧
    PhysicalMemoryObserveInterface.SanitizeSlot ⟨⟩ (some gadgetSlot) =
      .returned (gadgetSlot, some "physical-memory-observe slots only allowed on core snap") :=
  ⟨rfl, by decide, (sanitizeSlot_error_message ⟨⟩ gadgetSlot).1 rfl (by decide)⟩

/-- C10: PermanentSlotSnippet, PermanentPlugSnippet and ConnectedSlotSnippet
return (nil, nil) for every plug, slot and security system: no snippet and no
error. -/
theorem permanent_and_connectedSlot_snippets_nil (iface : PhysicalMemoryObserveInterface)
    (plug : Option Plug) (slot : Option Slot) (securitySystem : SecuritySystem) :
    iface.PermanentSlotSnippet slot securitySystem = .returned (none, none) ∧
    iface.PermanentPlugSnippet plug securitySystem = .returned (none, none) ∧
    iface.ConnectedSlotSnippet plug slot securitySystem = .returned (none, none) :=
  ⟨rfl, rfl, rfl⟩

/-! ## The udev snippet of a connected plug -/

/-- Writing to a buffer that already holds bytes appends to them. -/
theorem writeString_some (acc s : string) :
    Buffer.WriteString ⟨some acc⟩ s = ⟨some (acc ++ s)⟩ :=
  rfl

/-- The loop of ConnectedPlugSnippet, started on a buffer holding `acc`,
appends one newline-terminated rule per visited app name. -/
theorem loop_from_some (tagOf : string → string) (order : List string) (acc : string) :
    order.foldl (fun (tagSnippet : Buffer) appName =>
        (tagSnippet.WriteString (udevRule (tagOf appName))).WriteString "\n") ⟨some acc⟩ =
      ⟨some (acc ++ ruleText (order.map fun appName => udevRule (tagOf appName)))⟩ := by
  induction order generalizing acc with
  | nil => simp [ruleText]
  | cons appName rest ih =>
    simp only [List.foldl_cons, List.map_cons, writeString_some, ruleText, ih]
    simp only [String.append_assoc]

/-- The loop of ConnectedPlugSnippet, started on the zero buffer: the text of
its bytes is one newline-terminated rule per visited app name, and the bytes are
nil exactly when no app name is visited. -/
theorem loop_from_zero (tagOf : string → string) (order : List string) :
    (order.foldl (fun (tagSnippet : Buffer) appName =>
        (tagSnippet.WriteString (udevRule (tagOf appName))).WriteString "\n") Buffer.zero).Bytes =
      if order = [] then none
      else some (ruleText (order.map fun appName => udevRule (tagOf appName))) := by
  cases order with
  | nil => rfl
  | cons appName rest =>
    have hw : (Buffer.zero.WriteString (udevRule (tagOf appName))).WriteString "\n" =
        ⟨some (udevRule (tagOf appName) ++ "\n")⟩ := by
      simp [Buffer.zero, Buffer.WriteString]
    simp only [List.foldl_cons, hw, loop_from_some, List.map_cons, ruleText]
    simp [Buffer.Bytes, String.append_assoc]

/-- What ConnectedPlugSnippet returns for the udev security system. -/
theorem connectedPlugSnippet_udev (iface : PhysicalMemoryObserveInterface)
    (secName : string → string → string) (order : List string) (plug : Plug)
    (slot : Option Slot) :
    iface.ConnectedPlugSnippet secName order (some plug) slot SecurityUDev =
      .returned (if order = [] then none
        else some (ruleText (order.map fun appName =>
          udevRule (secName plug.Snap.Name appName))), none) := by
  simp only [PhysicalMemoryObserveInterface.ConnectedPlugSnippet, if_true]
  rw [loop_from_zero (secName plug.Snap.Name) order]

/-- What ConnectedPlugSnippet returns for another security system. -/
theorem connectedPlugSnippet_other (iface : PhysicalMemoryObserveInterface)
    (secName : string → string → string) (order : List string) (plug : Option Plug)
    (slot : Option Slot) (securitySystem : SecuritySystem)
    (h : securitySystem ≠ SecurityUDev) :
    iface.ConnectedPlugSnippet secName order plug slot securitySystem =
      .returned (none, none) := by
  simp [PhysicalMemoryObserveInterface.ConnectedPlugSnippet, h]

/-- The text of the bytes a loop returns is the text of its rules. -/
theorem text_ite (lines : List string) (order : List string) (h : order = [] → lines = []) :
    text (if order = [] then none else some (ruleText lines)) = ruleText lines := by
  by_cases ho : order = []
  · simp [ho, h ho, text, ruleText]
  · simp [ho, text]

/-- A range order lists the keys of the map: as a multiset it is the key set. -/
theorem rangeOrder_coe (keys : Finset String) (order : List String)
    (h : IsRangeOrder keys order) : (order : Multiset String) = keys.val := by
  obtain ⟨hnd, hk⟩ := h
  rw [← hk, List.toFinset_val, hnd.dedup]

/-- A range order is as long as the map has keys. -/
theorem rangeOrder_length (keys : Finset String) (order : List String)
    (h : IsRangeOrder keys order) : order.length = keys.card := by
  obtain ⟨hnd, hk⟩ := h
  rw [← hk, List.toFinset_card_of_nodup hnd]

/-- Two range orders of one map are permutations of each other. -/
theorem rangeOrder_perm (keys : Finset String) (o₁ o₂ : List String)
    (h₁ : IsRangeOrder keys o₁) (h₂ : IsRangeOrder keys o₂) : o₁.Perm o₂ := by
  have h := (rangeOrder_coe keys o₁ h₁).trans (rangeOrder_coe keys o₂ h₂).symm
  exact Quotient.exact h

/-- The rule format determines the tag it is applied to. -/
theorem udevRule_injective (t₁ t₂ : string) (h : udevRule t₁ = udevRule t₂) : t₁ = t₂ := by
  have hd := congrArg String.data h
  simp only [udevRule, String.data_append] at hd
  have h1 := List.append_cancel_right hd
  have h2 := List.append_cancel_left h1
  exact String.ext h2

/-- Adding to a snippet set the snippet just added leaves the set as it is. -/
theorem addSnippet_again (snippets : List string) (b : Bytes) :
    addSnippet (addSnippet snippets b) b = addSnippet snippets b := by
  cases b with
  | none => rfl
  | some t =>
    by_cases hm : t ∈ snippets
    · simp [addSnippet, hm]
    · simp [addSnippet, hm]

/-- Two nodup lists with the same elements, at most one of them, are equal. -/
theorem perm_eq_of_length_le_one (o₁ o₂ : List String) (hp : o₁.Perm o₂)
    (hl : o₁.length ≤ 1) : o₁ = o₂ := by
  match o₁, hp, hl with
  | [], hp, _ => exact (List.nil_perm.mp hp).symm
  | [a], hp, _ => exact List.singleton_perm.mp hp
  | _ :: _ :: _, _, hl => simp at hl

/-- C5: for the udev security system, ConnectedPlugSnippet returns no error and
a text of exactly as many newline-terminated lines as the plug has apps: as a
multiset, the lines are the rules KERNEL=="mem", TAG+="<t>", one per app name,
with <t> the udev security name of the plug's snap name and that app name. The
text is empty for a plug without apps, and each app's rule occurs exactly once
when the security name tells the apps of the plug apart. -/
theorem connectedPlugSnippet_udev_one_rule_per_app (iface : PhysicalMemoryObserveInterface)
    (secName : string → string → string) (order : List string) (plug : Plug)
    (slot : Option Slot) (h : IsRangeOrder plug.Apps order) :
    ∃ (bytes : Bytes) (lines : List string),
      iface.ConnectedPlugSnippet secName order (some plug) slot SecurityUDev =
        .returned (bytes, none) ∧
      text bytes = ruleText lines ∧
      lines.length = plug.Apps.card ∧
      (lines : Multiset string) = plug.Apps.val.map (fun appName =>
        "KERNEL==\"mem\", TAG+=\"" ++ secName plug.Snap.Name appName ++ "\"") ∧
      (plug.Apps = ∅ → text bytes = "") ∧
      (Set.InjOn (secName plug.Snap.Name) plug.Apps → ∀ appName ∈ plug.Apps,
        lines.count ("KERNEL==\"mem\", TAG+=\"" ++ secName plug.Snap.Name appName ++ "\"")
          = 1) := by
  refine ⟨_, order.map fun appName => udevRule (secName plug.Snap.Name appName),
    connectedPlugSnippet_udev iface secName order plug slot, ?_, ?_, ?_, ?_, ?_⟩
  · exact text_ite _ order (fun ho => by simp [ho])
  · rw [List.length_map, rangeOrder_length _ _ h]
  · rw [← rangeOrder_coe _ _ h]
    rfl
  · intro he
    have hlen := rangeOrder_length _ _ h
    rw [he, Finset.card_empty] at hlen
    have ho : order = [] := List.length_eq_zero.mp hlen
    simp [ho, text]
  · intro hinj appName ha
    have hmem : appName ∈ order := by
      have := h.2 ▸ ha
      simpa using this
    have hnd : (order.map fun appName => udevRule (secName plug.Snap.Name appName)).Nodup := by
      refine List.Nodup.map_on ?_ h.1
      intro x hx y hy hxy
      have hx2 : x ∈ plug.Apps := by rw [← h.2]; simpa using hx
      have hy2 : y ∈ plug.Apps := by rw [← h.2]; simpa using hy
      exact hinj hx2 hy2 (udevRule_injective _ _ hxy)
    exact List.count_eq_one_of_mem hnd (List.mem_map.mpr ⟨appName, hmem, rfl⟩)

/-- Witness of C5 on a plug used by the apps `a` and `b`, visited as `b`, `a`. -/
theorem connectedPlugSnippet_udev_one_rule_per_app_witness :
    IsRangeOrder twoAppPlug.Apps ["b", "a"] ∧
    ∃ (bytes : Bytes) (lines : List string),
      PhysicalMemoryObserveInterface.ConnectedPlugSnippet ⟨⟩ udevSnapSecurityName ["b", "a"]
        (some twoAppPlug) none SecurityUDev = .returned (bytes, none) ∧
      text bytes = ruleText lines ∧
      lines.length = twoAppPlug.Apps.card ∧
      (lines : Multiset string) = twoAppPlug.Apps.val.map (fun appName =>
        "KERNEL==\"mem\", TAG+=\"" ++ udevSnapSecurityName twoAppPlug.Snap.Name appName
          ++ "\"") ∧
      (twoAppPlug.Apps = ∅ → text bytes = "") ∧
      (Set.InjOn (udevSnapSecurityName twoAppPlug.Snap.Name) twoAppPlug.Apps →
        ∀ appName ∈ twoAppPlug.Apps,
          lines.count ("KERNEL==\"mem\", TAG+=\"" ++
            udevSnapSecurityName twoAppPlug.Snap.Name appName ++ "\"") = 1) :=
  ⟨by decide, connectedPlugSnippet_udev_one_rule_per_app ⟨⟩ udevSnapSecurityName ["b", "a"]
    twoAppPlug none (by decide)⟩

/-- C6: in every rule ConnectedPlugSnippet emits for the udev security system,
the value of TAG+= is the security tag snap.<snap-name>.<app-name> of an app of
the plug, built from the plug's snap name and the app name. -/
theorem connectedPlugSnippet_tag_is_security_tag (iface : PhysicalMemoryObserveInterface)
    (order : List string) (plug : Plug) (slot : Option Slot)
    (h : IsRangeOrder plug.Apps order) :
    ∃ (bytes : Bytes) (lines : List string),
      iface.ConnectedPlugSnippet udevSnapSecurityName order (some plug) slot SecurityUDev =
        .returned (bytes, none) ∧
      text bytes = ruleText lines ∧
      ∀ line ∈ lines, ∃ appName ∈ plug.Apps,
        line = "KERNEL==\"mem\", TAG+=\"" ++
          ("snap." ++ plug.Snap.name ++ "." ++ appName) ++ "\"" := by
  refine ⟨_, order.map fun appName => udevRule (udevSnapSecurityName plug.Snap.Name appName),
    connectedPlugSnippet_udev iface udevSnapSecurityName order plug slot, ?_, ?_⟩
  · exact text_ite _ order (fun ho => by simp [ho])
  · intro line hl
    obtain ⟨appName, hmem, rfl⟩ := List.mem_map.mp hl
    refine ⟨appName, ?_, rfl⟩
    rw [← h.2]
    simpa using hmem

/-- Witness of C6 on a plug used by the single app `a` of the snap `foo`. -/
theorem connectedPlugSnippet_tag_is_security_tag_witness :
    IsRangeOrder oneAppPlug.Apps ["a"] ∧
    ∃ (bytes : Bytes) (lines : List string),
      PhysicalMemoryObserveInterface.ConnectedPlugSnippet ⟨⟩ udevSnapSecurityName ["a"]
        (some oneAppPlug) none SecurityUDev = .returned (bytes, none) ∧
      text bytes = ruleText lines ∧
      ∀ line ∈ lines, ∃ appName ∈ oneAppPlug.Apps,
        line = "KERNEL==\"mem\", TAG+=\"" ++
          ("snap." ++ oneAppPlug.Snap.name ++ "." ++ appName) ++ "\"" :=
  ⟨by decide, connectedPlugSnippet_tag_is_security_tag ⟨⟩ ["a"] oneAppPlug none (by decide)⟩

/-- C7 as stated fails: on a plug used by the apps `a` and `b`, the two orders
in which the loop may visit the app map give two different texts, and the
snippet set fed both holds two snippets, not the one a single call gives. -/
theorem connectedPlugSnippet_twice_differs :
    IsRangeOrder twoAppPlug.Apps ["a", "b"] ∧ IsRangeOrder twoAppPlug.Apps ["b", "a"] ∧
    PhysicalMemoryObserveInterface.ConnectedPlugSnippet ⟨⟩ udevSnapSecurityName ["a", "b"]
        (some twoAppPlug) (some osSlot) SecurityUDev =
      .returned (some
        "KERNEL==\"mem\", TAG+=\"snap.foo.a\"\nKERNEL==\"mem\", TAG+=\"snap.foo.b\"\n", none) ∧
    PhysicalMemoryObserveInterface.ConnectedPlugSnippet ⟨⟩ udevSnapSecurityName ["b", "a"]
        (some twoAppPlug) (some osSlot) SecurityUDev =
      .returned (some
        "KERNEL==\"mem\", TAG+=\"snap.foo.b\"\nKERNEL==\"mem\", TAG+=\"snap.foo.a\"\n", none) ∧
    addSnippet (addSnippet []
        (PhysicalMemoryObserveInterface.ConnectedPlugSnippet ⟨⟩ udevSnapSecurityName ["a", "b"]
          (some twoAppPlug) (some osSlot) SecurityUDev).snippet)
        (PhysicalMemoryObserveInterface.ConnectedPlugSnippet ⟨⟩ udevSnapSecurityName ["b", "a"]
          (some twoAppPlug) (some osSlot) SecurityUDev).snippet ≠
      addSnippet []
        (PhysicalMemoryObserveInterface.ConnectedPlugSnippet ⟨⟩ udevSnapSecurityName ["a", "b"]
          (some twoAppPlug) (some osSlot) SecurityUDev).snippet := by
  decide

/-- C7, amended: two invocations of ConnectedPlugSnippet on the same plug, slot
and security system return no error and texts made of the same lines up to
their order. For a security system other than udev, and for a plug with at most
one app, the two results are identical, and the snippet set fed both is the set
fed one. -/
theorem connectedPlugSnippet_twice_same_lines (iface : PhysicalMemoryObserveInterface)
    (secName : string → string → string) (o₁ o₂ : List string) (plug : Plug)
    (slot : Option Slot) (securitySystem : SecuritySystem)
    (h₁ : IsRangeOrder plug.Apps o₁) (h₂ : IsRangeOrder plug.Apps o₂) :
    ∃ (b₁ b₂ : Bytes) (l₁ l₂ : List string),
      iface.ConnectedPlugSnippet secName o₁ (some plug) slot securitySystem =
        .returned (b₁, none) ∧
      iface.ConnectedPlugSnippet secName o₂ (some plug) slot securitySystem =
        .returned (b₂, none) ∧
      text b₁ = ruleText l₁ ∧ text b₂ = ruleText l₂ ∧ l₁.Perm l₂ ∧
      (securitySystem ≠ SecurityUDev ∨ plug.Apps.card ≤ 1 →
        b₁ = b₂ ∧
        ∀ snippets, addSnippet (addSnippet snippets b₁) b₂ = addSnippet snippets b₁) := by
  have hperm := rangeOrder_perm _ _ _ h₁ h₂
  by_cases hs : securitySystem = SecurityUDev
  · subst hs
    refine ⟨_, _, o₁.map fun appName => udevRule (secName plug.Snap.Name appName),
      o₂.map fun appName => udevRule (secName plug.Snap.Name appName),
      connectedPlugSnippet_udev iface secName o₁ plug slot,
      connectedPlugSnippet_udev iface secName o₂ plug slot, ?_, ?_, hperm.map _, ?_⟩
    · exact text_ite _ o₁ (fun ho => by simp [ho])
    · exact text_ite _ o₂ (fun ho => by simp [ho])
    · intro hc
      have hcard : plug.Apps.card ≤ 1 := by
        rcases hc with hc | hc
        · exact absurd rfl hc
        · exact hc
      have heq : o₁ = o₂ :=
        perm_eq_of_length_le_one o₁ o₂ hperm (by rw [rangeOrder_length _ _ h₁]; exact hcard)
      subst heq
      exact ⟨rfl, fun snippets => addSnippet_again snippets _⟩
  · refine ⟨none, none, [], [],
      connectedPlugSnippet_other iface secName o₁ (some plug) slot securitySystem hs,
      connectedPlugSnippet_other iface secName o₂ (some plug) slot securitySystem hs,
      rfl, rfl, List.Perm.refl _, ?_⟩
    intro _
    exact ⟨rfl, fun snippets => addSnippet_again snippets _⟩

/-- Witness of the amended C7 on a plug used by the apps `a` and `b`, visited
in the two possible orders. -/
theorem connectedPlugSnippet_twice_same_lines_witness :
    IsRangeOrder twoAppPlug.Apps ["a", "b"] ∧ IsRangeOrder twoAppPlug.Apps ["b", "a"] ∧
    ∃ (b₁ b₂ : Bytes) (l₁ l₂ : List string),
      PhysicalMemoryObserveInterface.ConnectedPlugSnippet ⟨⟩ udevSnapSecurityName ["a", "b"]
        (some twoAppPlug) (some osSlot) SecurityUDev = .returned (b₁, none) ∧
      PhysicalMemoryObserveInterface.ConnectedPlugSnippet ⟨⟩ udevSnapSecurityName ["b", "a"]
        (some twoAppPlug) (some osSlot) SecurityUDev = .returned (b₂, none) ∧
      text b₁ = ruleText l₁ ∧ text b₂ = ruleText l₂ ∧ l₁.Perm l₂ ∧
      (SecurityUDev ≠ SecurityUDev ∨ twoAppPlug.Apps.card ≤ 1 →
        b₁ = b₂ ∧
        ∀ snippets, addSnippet (addSnippet snippets b₁) b₂ = addSnippet snippets b₁) :=
  ⟨by decide, by decide, connectedPlugSnippet_twice_same_lines ⟨⟩ udevSnapSecurityName
    ["a", "b"] ["b", "a"] twoAppPlug (some osSlot) SecurityUDev (by decide) (by decide)⟩

/-! ## Name, the other security systems, the AppArmor snippet and the frame -/

/-- C12: Name() returns the constant "physical-memory-observe" on every call, and
String() returns what Name() returns. -/
theorem name_constant (iface : PhysicalMemoryObserveInterface) :
    iface.Name = "physical-memory-observe" ∧ iface.String = iface.Name :=
  ⟨rfl, rfl⟩

/-- C13: for every security system other than udev, ConnectedPlugSnippet returns
(nil, nil), for every plug (a nil one too) and every slot; a call that returns a
snippet was made for udev. -/
theorem connectedPlugSnippet_nil_unless_udev (iface : PhysicalMemoryObserveInterface)
    (secName : string → string → string) (order : List string) (plug : Option Plug)
    (slot : Option Slot) (securitySystem : SecuritySystem) :
    (securitySystem ≠ SecurityUDev →
      iface.ConnectedPlugSnippet secName order plug slot securitySystem =
        .returned (none, none)) ∧
    (∀ snippet err, iface.ConnectedPlugSnippet secName order plug slot securitySystem =
        .returned (some snippet, err) → securitySystem = SecurityUDev) := by
  refine ⟨connectedPlugSnippet_other iface secName order plug slot securitySystem, ?_⟩
  intro snippet err hr
  by_contra hne
  rw [connectedPlugSnippet_other iface secName order plug slot securitySystem hne] at hr
  simp at hr

/-- Witness of C13 for the AppArmor security system and a plug used by two
apps. -/
theorem connectedPlugSnippet_nil_unless_udev_witness :
    (⟨"apparmor"⟩ : SecuritySystem) ≠ SecurityUDev ∧
    PhysicalMemoryObserveInterface.ConnectedPlugSnippet ⟨⟩ udevSnapSecurityName ["a", "b"]
      (some twoAppPlug) (some osSlot) ⟨"apparmor"⟩ = .returned (none, none) :=
  ⟨by decide, (connectedPlugSnippet_nil_unless_udev ⟨⟩ udevSnapSecurityName ["a", "b"]
    (some twoAppPlug) (some osSlot) ⟨"apparmor"⟩).1 (by decide)⟩

/-- C14: AppArmorConnectedPlug returns no error and adds exactly one snippet, the
constant physicalMemoryObserveConnectedPlugAppArmor, whatever the specification,
the plug and the slot are: one call of AddSnippet for any specification type,
one more entry in a specification seen as the list of its added snippets. The
only line of the constant that is neither blank nor a comment is the rule
"/dev/mem r,", which grants read access only. -/
theorem appArmorConnectedPlug_adds_constant (iface : PhysicalMemoryObserveInterface)
    (plug : Option Plug) (slot : Option Slot) :
    (∀ (σ : Type) (AddSnippet : σ → string → σ) (spec : σ),
      iface.AppArmorConnectedPlug AddSnippet spec plug slot =
        .returned (AddSnippet spec physicalMemoryObserveConnectedPlugAppArmor, none)) ∧
    (∀ spec : List string,
      iface.AppArmorConnectedPlug recordSnippet spec plug slot =
        .returned (spec ++ [physicalMemoryObserveConnectedPlugAppArmor], none)) ∧
    ruleLines physicalMemoryObserveConnectedPlugAppArmor = ["/dev/mem r,"] := by
  refine ⟨fun _ _ _ => rfl, fun _ => rfl, ?_⟩
  decide

/-- The panic message of SanitizePlug, with the quoted interface name spelled
out. -/
theorem plug_panic_message (iface : PhysicalMemoryObserveInterface) :
    "plug is not of interface " ++ quote iface.String =
      "plug is not of interface \"physical-memory-observe\"" := by
  cases iface
  decide

/-- C15: on a plug whose interface is not "physical-memory-observe", SanitizePlug
panics instead of returning; and on no plug, nil or not, of this interface or
not, does it return an error that is not nil. -/
theorem sanitizePlug_panics_or_nil (iface : PhysicalMemoryObserveInterface) :
    (∀ plug : Plug, plug.Interface ≠ "physical-memory-observe" →
      iface.SanitizePlug (some plug) =
        .panicked "plug is not of interface \"physical-memory-observe\"") ∧
    (∀ (plug : Option Plug) (p : Plug) (msg : string),
      iface.SanitizePlug plug ≠ .returned (p, some msg)) := by
  constructor
  · intro plug h
    rw [← plug_panic_message iface]
    simp [PhysicalMemoryObserveInterface.SanitizePlug,
      PhysicalMemoryObserveInterface.Name, Ne.symm h]
  · intro plug p msg hr
    cases plug with
    | none => simp [PhysicalMemoryObserveInterface.SanitizePlug] at hr
    | some q =>
      unfold PhysicalMemoryObserveInterface.SanitizePlug at hr
      by_cases hi : iface.Name ≠ q.Interface
      · simp [hi] at hr
      · simp [hi] at hr

/-- Witness of C15 on a docker plug. -/
theorem sanitizePlug_panics_or_nil_witness :
    dockerPlug.Interface ≠ "physical-memory-observe" ∧
    PhysicalMemoryObserveInterface.SanitizePlug ⟨⟩ (some dockerPlug) =
      .panicked "plug is not of interface \"physical-memory-observe\"" :=
  ⟨by decide, (sanitizePlug_panics_or_nil ⟨⟩).1 dockerPlug (by decide)⟩

/-- C16: SanitizeSlot and SanitizePlug leave their argument as it was: whenever
they return, with an error or without, the slot (the plug) after the call is the
slot (the plug) before it, in its name, interface, attributes, owning snap and
apps. -/
theorem sanitize_leaves_argument (iface : PhysicalMemoryObserveInterface) :
    (∀ (slot after : Slot) (err : error),
      iface.SanitizeSlot (some slot) = .returned (after, err) →
        after = slot ∧ after.Name = slot.Name ∧ after.Interface = slot.Interface ∧
        after.Attrs = slot.Attrs ∧ after.Snap = slot.Snap) ∧
    (∀ (plug after : Plug) (err : error),
      iface.SanitizePlug (some plug) = .returned (after, err) →
        after = plug ∧ after.Name = plug.Name ∧ after.Interface = plug.Interface ∧
        after.Attrs = plug.Attrs ∧ after.Snap = plug.Snap ∧ after.Apps = plug.Apps) := by
  constructor
  · intro slot after err hr
    have h : after = slot := by
      unfold PhysicalMemoryObserveInterface.SanitizeSlot at hr
      by_cases hi : iface.Name ≠ slot.Interface
      · simp [hi] at hr
      · by_cases ht : slot.Snap.snapType = "os"
        · simp [hi, ht] at hr
          exact hr.1.symm
        · simp [hi, ht] at hr
          exact hr.1.symm
    subst h
    exact ⟨rfl, rfl, rfl, rfl, rfl⟩
  · intro plug after err hr
    have h : after = plug := by
      unfold PhysicalMemoryObserveInterface.SanitizePlug at hr
      by_cases hi : iface.Name ≠ plug.Interface
      · simp [hi] at hr
      · simp [hi] at hr
        exact hr.1.symm
    subst h
    exact ⟨rfl, rfl, rfl, rfl, rfl, rfl⟩

/-- Witness of C16 on a gadget snap's slot, which SanitizeSlot rejects. -/
theorem sanitize_leaves_argument_witness :
    PhysicalMemoryObserveInterface.SanitizeSlot ⟨⟩ (some gadgetSlot) =
      .returned (gadgetSlot, some "physical-memory-observe slots only allowed on core snap") ∧
    gadgetSlot = gadgetSlot ∧ gadgetSlot.Name = gadgetSlot.Name ∧
    gadgetSlot.Interface = gadgetSlot.Interface ∧ gadgetSlot.Attrs = gadgetSlot.Attrs ∧
    gadgetSlot.Snap = gadgetSlot.Snap :=
  ⟨by decide, (sanitize_leaves_argument ⟨⟩).1 gadgetSlot gadgetSlot
    (some "physical-memory-observe slots only allowed on core snap") (by decide)⟩

/-! ## The docker interface in a Specification -/

/-- A tag without contribution so far gets its first snippet at the end. -/
theorem addForTag_new (snippets : List (string × List string)) (tag snippet : string)
    (h : tag ∉ snippets.map Prod.fst) :
    addForTag snippets tag snippet = snippets ++ [(tag, [snippet])] := by
  induction snippets with
  | nil => rfl
  | cons entry rest ih =>
    obtain ⟨t, set⟩ := entry
    simp only [List.map_cons, List.mem_cons, not_or] at h
    have hne : ¬ t = tag := fun e => h.1 e.symm
    simp [addForTag, hne, ih h.2]

/-- Writing one snippet to distinct tags that have no contribution so far gives
each of them, in order, that snippet alone. -/
theorem foldl_addForTag_new (tags : List string) (snippet : string)
    (snippets : List (string × List string)) (hnd : tags.Nodup)
    (hnew : ∀ tag ∈ tags, tag ∉ snippets.map Prod.fst) :
    tags.foldl (fun snippets tag => addForTag snippets tag snippet) snippets =
      snippets ++ tags.map fun tag => (tag, [snippet]) := by
  induction tags generalizing snippets with
  | nil => simp
  | cons tag rest ih =>
    have hn := List.nodup_cons.mp hnd
    rw [List.foldl_cons, addForTag_new snippets tag snippet (hnew tag (List.mem_cons_self _ _)),
      ih _ hn.2, List.map_cons, List.append_assoc, List.singleton_append]
    intro t ht
    simp only [List.map_append, List.map_cons, List.map_nil, List.mem_append,
      List.mem_singleton, not_or]
    refine ⟨hnew t (List.mem_cons_of_mem _ ht), ?_⟩
    intro e
    exact hn.1 (e ▸ ht)

/-- The security tag tells the apps of a snap apart. -/
theorem securityTag_injective (snapName : string) :
    Function.Injective (SecurityTag snapName) := by
  intro a b h
  have hd := congrArg String.data h
  simp only [SecurityTag, String.data_append] at hd
  exact String.ext (List.append_cancel_left hd)

/-- The snippet set of a tag among tags that each hold one snippet alone. -/
theorem lookup_single (tags : List string) (snippet tag : string) (h : tag ∈ tags) :
    (tags.map fun t => (t, [snippet])).lookup tag = some [snippet] := by
  induction tags with
  | nil => cases h
  | cons t rest ih =>
    by_cases e : tag = t
    · subst e
      simp [List.lookup]
    · have hr : tag ∈ rest := by
        rcases List.mem_cons.mp h with h | h
        · exact absurd h e
        · exact h
      have hb : (tag == t) = false := by simpa using e
      simp [List.lookup, hb, ih hr]

/-- What AddConnectedPlug leaves of a fresh Specification when the producer
writes one snippet: every security tag of the visited apps holds that snippet
alone. -/
theorem addConnectedPlug_fresh_one_snippet (snippet : string) (order : List string)
    (plug : Plug) (slot : Option Slot) (hnd : order.Nodup) :
    Specification.fresh.AddConnectedPlug
        (fun spec _ _ => .returned (spec.AddSnippet snippet, none)) order (some plug) slot =
      .returned (⟨[], (order.map (SecurityTag plug.Snap.Name)).map fun tag =>
        (tag, [snippet])⟩, none) := by
  have hf := foldl_addForTag_new (order.map (SecurityTag plug.Snap.Name)) snippet []
    (hnd.map (securityTag_injective plug.Snap.Name)) (fun _ _ => by simp)
  simp only [Specification.AddConnectedPlug, Specification.AddSnippet, Specification.fresh, hf,
    List.nil_append]

/-- The only order in which the app of the docker test plug is visited. -/
theorem dockerPlug_order (order : List string) (h : IsRangeOrder dockerPlug.Apps order) :
    order = ["app"] :=
  (perm_eq_of_length_le_one ["app"] order
    (rangeOrder_perm dockerPlug.Apps ["app"] order (by decide) h) (by decide)).symm

/-- C11: for the docker interface and the plug of the snap `docker` used by its
single app `app`, AddConnectedPlug on a fresh AppArmor Specification returns no
error, leaves the security tags ["snap.docker.app"] and a snippet for that tag
that contains "run/docker.sock"; on a fresh seccomp Specification it returns no
error and leaves the same single tag, with a snippet that contains "bind\n".
For every plug, the tags that get a connected-plug contribution are the
security tags snap.<snap>.<app> of the apps of the plug, one each, and each
holds the text of the interface. -/
theorem docker_addConnectedPlug_tags (iface : DockerInterface) :
    (∀ order, IsRangeOrder dockerPlug.Apps order →
      ∃ spec : Specification,
        Specification.fresh.AddConnectedPlug iface.AppArmorConnectedPlug order
          (some dockerPlug) (some dockerDaemonSlot) = .returned (spec, none) ∧
        spec.SecurityTags = ["snap.docker.app"] ∧
        Contains (spec.SnippetForTag "snap.docker.app") "run/docker.sock") ∧
    (∀ order, IsRangeOrder dockerPlug.Apps order →
      ∃ spec : Specification,
        Specification.fresh.AddConnectedPlug iface.SecCompConnectedPlug order
          (some dockerPlug) (some dockerDaemonSlot) = .returned (spec, none) ∧
        spec.SecurityTags = ["snap.docker.app"] ∧
        Contains (spec.SnippetForTag "snap.docker.app") "bind\n") ∧
    (∀ (plug : Plug) (slot : Option Slot) (order : List string),
      IsRangeOrder plug.Apps order →
      ∃ apparmorSpec seccompSpec : Specification,
        Specification.fresh.AddConnectedPlug iface.AppArmorConnectedPlug order
          (some plug) slot = .returned (apparmorSpec, none) ∧
        Specification.fresh.AddConnectedPlug iface.SecCompConnectedPlug order
          (some plug) slot = .returned (seccompSpec, none) ∧
        (apparmorSpec.SecurityTags : Multiset string) =
          plug.Apps.val.map (fun appName => "snap." ++ plug.Snap.name ++ "." ++ appName) ∧
        (seccompSpec.SecurityTags : Multiset string) =
          plug.Apps.val.map (fun appName => "snap." ++ plug.Snap.name ++ "." ++ appName) ∧
        ∀ appName ∈ plug.Apps,
          apparmorSpec.SnippetForTag ("snap." ++ plug.Snap.name ++ "." ++ appName) =
            dockerConnectedPlugAppArmor ∧
          seccompSpec.SnippetForTag ("snap." ++ plug.Snap.name ++ "." ++ appName) =
            dockerConnectedPlugSecComp) := by
  cases iface
  refine ⟨?_, ?_, ?_⟩
  · intro order h
    rw [dockerPlug_order order h]
    refine ⟨⟨[], [("snap.docker.app", [dockerConnectedPlugAppArmor])]⟩, by decide, by decide,
      "/", " rw,\n", by decide⟩
  · intro order h
    rw [dockerPlug_order order h]
    refine ⟨⟨[], [("snap.docker.app", [dockerConnectedPlugSecComp])]⟩, by decide, by decide,
      "", "", by decide⟩
  · intro plug slot order h
    have ha : Specification.fresh.AddConnectedPlug (DockerInterface.AppArmorConnectedPlug ⟨⟩) order
        (some plug) slot = _ :=
      addConnectedPlug_fresh_one_snippet dockerConnectedPlugAppArmor order plug slot h.1
    have hs : Specification.fresh.AddConnectedPlug (DockerInterface.SecCompConnectedPlug ⟨⟩) order
        (some plug) slot = _ :=
      addConnectedPlug_fresh_one_snippet dockerConnectedPlugSecComp order plug slot h.1
    have htags : ∀ snippet : string,
        (((order.map (SecurityTag plug.Snap.Name)).map fun tag => (tag, [snippet])).map
          Prod.fst : Multiset string) =
        plug.Apps.val.map (fun appName => "snap." ++ plug.Snap.name ++ "." ++ appName) := by
      intro snippet
      rw [← rangeOrder_coe _ _ h]
      simp only [List.map_map, Multiset.map_coe]
      rfl
    refine ⟨_, _, ha, hs, htags _, htags _, ?_⟩
    intro appName hmem
    have hin : SecurityTag plug.Snap.Name appName ∈ order.map (SecurityTag plug.Snap.Name) := by
      refine List.mem_map.mpr ⟨appName, ?_, rfl⟩
      have := h.2 ▸ hmem
      simpa using this
    constructor
    · show (match (List.lookup (SecurityTag plug.Snap.Name appName) _) with
        | none => ""
        | some set => "\n".intercalate set) = _
      rw [lookup_single _ _ _ hin]
      rfl
    · show (match (List.lookup (SecurityTag plug.Snap.Name appName) _) with
        | none => ""
        | some set => "\n".intercalate set) = _
      rw [lookup_single _ _ _ hin]
      rfl

/-- Witness of C11 on a docker plug used by the apps `a` and `b` of the snap
`foo`, visited as `b`, `a`. -/
theorem docker_addConnectedPlug_tags_witness :
    IsRangeOrder otherPlug.Apps ["b", "a"] ∧
    ∃ apparmorSpec seccompSpec : Specification,
      Specification.fresh.AddConnectedPlug (DockerInterface.AppArmorConnectedPlug ⟨⟩) ["b", "a"]
        (some otherPlug) (some dockerDaemonSlot) = .returned (apparmorSpec, none) ∧
      Specification.fresh.AddConnectedPlug (DockerInterface.SecCompConnectedPlug ⟨⟩) ["b", "a"]
        (some otherPlug) (some dockerDaemonSlot) = .returned (seccompSpec, none) ∧
      (apparmorSpec.SecurityTags : Multiset string) =
        otherPlug.Apps.val.map (fun appName => "snap." ++ otherPlug.Snap.name ++ "." ++ appName) ∧
      (seccompSpec.SecurityTags : Multiset string) =
        otherPlug.Apps.val.map (fun appName => "snap." ++ otherPlug.Snap.name ++ "." ++ appName) ∧
      ∀ appName ∈ otherPlug.Apps,
        apparmorSpec.SnippetForTag ("snap." ++ otherPlug.Snap.name ++ "." ++ appName) =
          dockerConnectedPlugAppArmor ∧
        seccompSpec.SnippetForTag ("snap." ++ otherPlug.Snap.name ++ "." ++ appName) =
          dockerConnectedPlugSecComp :=
  ⟨by decide, (docker_addConnectedPlug_tags ⟨⟩).2.2 otherPlug (some dockerDaemonSlot) ["b", "a"]
    (by decide)⟩

end builtin
